import Mathlib

/-!
# Verification of the vesu-liquidator monitoring core

Shallow embedding of `src/services/monitoring.rs`: the event-scheduler loop
(`start`), the liquidability sweep (`monitor_positions_liquidability`), the
liquidation attempt (`try_to_liquidate_position`), the profitability
simulation (`compute_profitability`) and the confirmation-wait entry point
(`wait_for_tx_to_be_accepted`).

Modelling conventions:
- `BigDecimal` values are modelled as `ℚ`. The operations used by the code
  (multiplication, subtraction, comparison, the literal `BigDecimal::new(5, 2)
  = 5 × 10⁻²`) are exact on `BigDecimal` and agree with the corresponding
  rational operations.
- External collaborators (the position's liquidable-amount and
  liquidation-factor calculations, the liquidability predicate, the account's
  fee estimation and transaction execution, the confirmation wait, and the
  storage backend) live outside this module; they are modelled as function
  fields of `Position` and `Service`, returning `Except Err` exactly where the
  Rust signatures return `Result`.
- Every external call is recorded in an ordered trace of `ExtCall` events, so
  that claims about which effects happen (and how often) are statable. Each
  embedded function returns `List ExtCall × Except Err α`: the calls it made,
  in order, and its outcome.
- The `tokio::select!` loop of `start` is modelled as a function `run`
  consuming a finite list of `Event`s (timer ticks, received messages, and
  channel closure), returning the trace, and either the error that terminated
  the loop or the current position book when the event list is exhausted.
-/

/-- Error values (`anyhow::Error`), identified by their message. -/
abbrev Err := String

/-- A Starknet field element, modelled as a natural number below the Stark
prime. Only its string conversions matter to this module. -/
abbrev Felt := Nat

/-- The Stark prime 2^251 + 17·2^192 + 1, the modulus of `Felt`. -/
def starkPrime : Nat := 2 ^ 251 + 17 * 2 ^ 192 + 1

/-- A Starknet `Call` (starknet::core::types::Call): contract address,
entry-point selector, calldata. Opaque to this module; built by the external
transaction builder and passed through to execution. -/
structure Call where
  to_address : Felt
  selector : Felt
  calldata : List Felt
deriving Repr, DecidableEq

/-- `crate::config::LiquidationMode`. -/
inductive LiquidationMode where
  | Full : LiquidationMode
  | Partial : LiquidationMode
deriving Repr, DecidableEq

/-- A monitored position (`crate::types::position::Position`).

Modelled from the spec: the `Position` type itself is not under `src/` (only
its caller `monitoring.rs` is). Per the spec's data model it carries a stable
identity key and references to its debt asset, and exposes external behavior:
the liquidability predicate against the current oracle snapshot
(`is_liquidable`), the liquidable-amount calculation parameterized by the
liquidation mode (`liquidable_amount`, returning the liquidable amount
expressed in the debt asset and in the collateral asset), the
liquidation-factor calculation (`fetch_liquidation_factors`, infallible in the
source: its call site has no `?`), and the liquidation transaction builder
(`get_liquidation_txs`, taking the debt amount to liquidate and the minimum
collateral to receive). -/
structure Position where
  key : Nat
  debtName : String
  is_liquidable : Bool
  liquidable_amount : LiquidationMode → Except Err (ℚ × ℚ)
  fetch_liquidation_factors : ℚ
  get_liquidation_txs : ℚ → ℚ → Except Err (List Call)

/-- The position book: `PositionsMap`, a map from position key to the latest
`Position`, modelled as an association list with unique keys where insertion
replaces in place. -/
abbrev Book := List (Nat × Position)

/-- One external (I/O) call made by the monitoring service, in the order the
code performs them. `storageSaveCall` carries the full snapshot passed to
`Storage::save` together with the block number. -/
inductive ExtCall where
  | isLiquidableCall (key : Nat) : ExtCall
  | liquidableAmountCall (key : Nat) : ExtCall
  | fetchFactorsCall (key : Nat) : ExtCall
  | getTxsCall (key : Nat) (debt_to_liquidate : ℚ) (min_collateral_to_receive : ℚ) : ExtCall
  | estimateFeesCall (key : Nat) : ExtCall
  | executeTxsCall (txs : List Call) : ExtCall
  | waitForTxCall (tx_hash : Felt) : ExtCall
  | storageSaveCall (snapshot : Book) (block_number : Nat) : ExtCall

/-- `true` exactly on transaction-submission events (`account.execute_txs`). -/
def ExtCall.isExecute : ExtCall → Bool
  | ExtCall.executeTxsCall _ => true
  | _ => false

/-- The service's own configuration and its account/chain/storage
collaborators (`MonitoringService` fields other than the position book):
the liquidation mode and minimum profit from `Config`, the account's fee
estimation and transaction execution, the chain confirmation wait
(`utils::wait_for_tx`), and the storage backend's `save`. -/
structure Service where
  liquidation_mode : LiquidationMode
  min_profit : ℚ
  estimate_fees_cost : List Call → Except Err ℚ
  execute_txs : List Call → Except Err Felt
  wait_for_tx : Felt → Except Err Unit
  storage_save : Book → Nat → Except Err Unit

/-- The hexadecimal value of a digit character, `none` on a non-hex character.
Models the per-character parsing of the starknet dependency's
`Felt::from_hex`. -/
def hexDigitVal (c : Char) : Option Nat :=
  if '0' ≤ c ∧ c ≤ '9' then some (c.toNat - Char.toNat '0')
  else if 'a' ≤ c ∧ c ≤ 'f' then some (c.toNat - Char.toNat 'a' + 10)
  else if 'A' ≤ c ∧ c ≤ 'F' then some (c.toNat - Char.toNat 'A' + 10)
  else none

/-- Parse a list of characters as a base-16 number, `none` on the first
non-hex character. -/
def parseHexDigits : List Char → Nat → Option Nat
  | [], acc => some acc
  | c :: cs, acc =>
    match hexDigitVal c with
    | none => none
    | some d => parseHexDigits cs (acc * 16 + d)

/-- Strip one optional leading `0x` marker from a character list. -/
def stripHexMark : List Char → List Char
  | '0' :: 'x' :: rest => rest
  | cs => cs

/-- `Felt::from_hex` of the starknet dependency (via lambdaworks
`FieldElement::from_hex` over a 4×64-bit `UnsignedInteger`): strips an
optional `0x`, requires a nonempty string of hexadecimal digits of at most 64
characters (longer strings are rejected with `HexStringIsTooBig`), and
interprets it base 16 modulo the Stark prime; errors otherwise. -/
def feltFromHex (s : String) : Except Err Felt :=
  let body := stripHexMark s.data
  if body.isEmpty then Except.error "expected hex string"
  else if body.length > 64 then Except.error "hex string is too big"
  else
    match parseHexDigits body 0 with
    | none => Except.error "expected hex string"
    | some v => Except.ok (v % starkPrime)

/-- The character for a decimal digit `d < 10`. -/
def decDigitChar (d : Nat) : Char := Char.ofNat (Char.toNat '0' + d)

/-- Decimal digit characters of `n`, most significant first, prepended to
`acc`; `fuel` bounds the recursion (any `fuel > n` is exact). -/
def decDigitsCore : Nat → Nat → List Char → List Char
  | 0, _, acc => acc
  | fuel + 1, n, acc =>
    if n < 10 then decDigitChar n :: acc
    else decDigitsCore fuel (n / 10) (decDigitChar (n % 10) :: acc)

/-- The `Display` implementation of the starknet dependency's `Felt` (hence
its `to_string`): it renders the value in **decimal** notation, with no
prefix. -/
def feltToString (x : Felt) : String := String.mk (decDigitsCore (x + 1) x [])

/-- `MonitoringService::compute_profitability`: simulate the profit of
liquidating `position` and build the liquidation transactions. Returns the
external calls made, and either the first collaborator error or
`(profit, txs)`. -/
def compute_profitability (svc : Service) (position : Position) :
    List ExtCall × Except Err (ℚ × List Call) :=
  match position.liquidable_amount svc.liquidation_mode with
  | Except.error e => ([ExtCall.liquidableAmountCall position.key], Except.error e)
  | Except.ok (liquidable_amount_as_debt_asset, liquidable_amount_as_collateral_asset) =>
    let liquidation_factor := position.fetch_liquidation_factors
    let debt_to_liquidate : ℚ :=
      match svc.liquidation_mode with
      | LiquidationMode.Full => 0
      | LiquidationMode.Partial => liquidable_amount_as_debt_asset * liquidation_factor
    let min_collateral_to_receive : ℚ :=
      liquidable_amount_as_collateral_asset * liquidation_factor
    let simulated_profit : ℚ := liquidable_amount_as_debt_asset * (1 - liquidation_factor)
    match position.get_liquidation_txs debt_to_liquidate min_collateral_to_receive with
    | Except.error e =>
      ([ExtCall.liquidableAmountCall position.key,
        ExtCall.fetchFactorsCall position.key,
        ExtCall.getTxsCall position.key debt_to_liquidate min_collateral_to_receive],
       Except.error e)
    | Except.ok liquidation_txs =>
      match svc.estimate_fees_cost liquidation_txs with
      | Except.error e =>
        ([ExtCall.liquidableAmountCall position.key,
          ExtCall.fetchFactorsCall position.key,
          ExtCall.getTxsCall position.key debt_to_liquidate min_collateral_to_receive,
          ExtCall.estimateFeesCall position.key],
         Except.error e)
      | Except.ok execution_fees =>
        let slippage : ℚ := 5 / 10 ^ 2
        let slippage_factor : ℚ := 1 - slippage
        ([ExtCall.liquidableAmountCall position.key,
          ExtCall.fetchFactorsCall position.key,
          ExtCall.getTxsCall position.key debt_to_liquidate min_collateral_to_receive,
          ExtCall.estimateFeesCall position.key],
         Except.ok (simulated_profit * slippage_factor - execution_fees, liquidation_txs))

/-- `MonitoringService::wait_for_tx_to_be_accepted`: re-parse the transaction
hash string with `Felt::from_hex`, then wait for that transaction on chain. -/
def wait_for_tx_to_be_accepted (svc : Service) (tx_hash : String) :
    List ExtCall × Except Err Unit :=
  match feltFromHex tx_hash with
  | Except.error e => ([], Except.error e)
  | Except.ok h => ([ExtCall.waitForTxCall h], svc.wait_for_tx h)

/-- `MonitoringService::try_to_liquidate_position`: compute profitability; if
the profit reaches the minimum, execute the transactions and wait for
confirmation; in both branches return the computed profit. -/
def try_to_liquidate_position (svc : Service) (position : Position) :
    List ExtCall × Except Err ℚ :=
  match compute_profitability svc position with
  | (l, Except.error e) => (l, Except.error e)
  | (l, Except.ok (profit, txs)) =>
    if profit ≥ svc.min_profit then
      match svc.execute_txs txs with
      | Except.error e => (l ++ [ExtCall.executeTxsCall txs], Except.error e)
      | Except.ok tx_hash_felt =>
        let tx_hash := feltToString tx_hash_felt
        match wait_for_tx_to_be_accepted svc tx_hash with
        | (l2, Except.error e) =>
          (l ++ ExtCall.executeTxsCall txs :: l2, Except.error e)
        | (l2, Except.ok _) =>
          (l ++ ExtCall.executeTxsCall txs :: l2, Except.ok profit)
    else
      (l, Except.ok profit)

/-- The body of the sweep's `for` loop over the book's entries: check each
position's liquidability (an oracle-backed external predicate) and, when
liquidable, attempt liquidation; the first error aborts the sweep. The
returned `_profit_made` of an attempt is discarded, as in the source. -/
def sweep (svc : Service) : Book → List ExtCall × Except Err Unit
  | [] => ([], Except.ok ())
  | (_, position) :: rest =>
    if position.is_liquidable then
      match try_to_liquidate_position svc position with
      | (l, Except.error e) => (ExtCall.isLiquidableCall position.key :: l, Except.error e)
      | (l, Except.ok _profit_made) =>
        match sweep svc rest with
        | (l2, r) => (ExtCall.isLiquidableCall position.key :: (l ++ l2), r)
    else
      match sweep svc rest with
      | (l2, r) => (ExtCall.isLiquidableCall position.key :: l2, r)

/-- `MonitoringService::monitor_positions_liquidability`: read the book; if it
is empty return `Ok(())` immediately (before any external call), otherwise
sweep every position in order. -/
def monitor_positions_liquidability (svc : Service) (book : Book) :
    List ExtCall × Except Err Unit :=
  if book.isEmpty then ([], Except.ok ()) else sweep svc book

/-- Insert a position under a key, replacing in place (the `HashMap::insert`
of the channel branch). -/
def bookInsert : Book → Nat → Position → Book
  | [], k, p => [(k, p)]
  | (k0, p0) :: rest, k, p =>
    if k0 = k then (k, p) :: rest else (k0, p0) :: bookInsert rest k p

/-- Look a key up in the book. -/
def bookLookup : Book → Nat → Option Position
  | [], _ => none
  | (k0, p0) :: rest, k => if k0 = k then some p0 else bookLookup rest k

/-- One event observed by the `tokio::select!` of `MonitoringService::start`:
a tick of the positions-check interval, a `(block_number, position)` message
from the indexer channel, or the channel reporting permanent closure
(`recv()` returning `None`). -/
inductive Event where
  | tick : Event
  | msg (block_number : Nat) (position : Position) : Event
  | closed : Event

/-- `MonitoringService::start`, run over a finite list of observed events:
each tick runs the sweep, each message is merged into the book (last write
wins) and the updated book is persisted with the message's block number, and
channel closure terminates the loop with the fatal error. The result is the
trace of external calls and either the terminating error or the book when the
event list is exhausted (the loop still running). -/
def run (svc : Service) (book : Book) : List Event → List ExtCall × Except Err Book
  | [] => ([], Except.ok book)
  | Event.tick :: rest =>
    match monitor_positions_liquidability svc book with
    | (l, Except.error e) => (l, Except.error e)
    | (l, Except.ok _) =>
      match run svc book rest with
      | (l2, r) => (l ++ l2, r)
  | Event.msg block_number new_position :: rest =>
    let book2 := bookInsert book (new_position.key) new_position
    match svc.storage_save book2 block_number with
    | Except.error e => ([ExtCall.storageSaveCall book2 block_number], Except.error e)
    | Except.ok _ =>
      match run svc book2 rest with
      | (l2, r) => (ExtCall.storageSaveCall book2 block_number :: l2, r)
  | Event.closed :: _ => ([], Except.error "⛔ Monitoring stopped unexpectedly.")

/-- The spec-side description of the channel branch's state: fold every
`(block_number, position)` message into the book in arrival order. -/
def applyMsgs (book : Book) : List (Nat × Position) → Book
  | [] => book
  | (_, p) :: rest => applyMsgs (bookInsert book p.key p) rest

/-- The spec-side description of the persistence trace: one save per merged
update, carrying the book as of that update and the update's block number. -/
def saveTrace (book : Book) : List (Nat × Position) → List ExtCall
  | [] => []
  | (bn, p) :: rest =>
    ExtCall.storageSaveCall (bookInsert book p.key p) bn ::
      saveTrace (bookInsert book p.key p) rest

/-- The spec-side "most recently received message with this key", scanning a
message list where later entries are more recent. -/
def lastMsgFor : List (Nat × Position) → Nat → Option Position
  | [], _ => none
  | (_, p) :: rest, k =>
    match lastMsgFor rest k with
    | some q => some q
    | none => if p.key = k then some p else none

/-- The spec-side contents of the book after a message sequence: the most
recent message for the key if any, otherwise the initial entry (replacement
only, never deletion). -/
def lwwExpected (book : Book) (msgs : List (Nat × Position)) (k : Nat) : Option Position :=
  match lastMsgFor msgs k with
  | some q => some q
  | none => bookLookup book k

/-- Liquidation transaction set returned by the builder in the concrete
scenarios. -/
def txsA : List Call := [⟨1, 2, [3]⟩]

/-- Scenario A position (spec §8): liquidable amount 1000 as debt asset and
2000 as collateral asset, liquidation factor 0.1, liquidable. -/
def posA : Position :=
  ⟨1, "ETH", true, fun _ => Except.ok (1000, 2000), 1 / 10, fun _ _ => Except.ok txsA⟩

/-- Scenario A service: Partial mode, minimum profit 500, execution fees 10,
execution returns transaction hash 7, every collaborator succeeds. -/
def svcA : Service :=
  ⟨LiquidationMode.Partial, 500, fun _ => Except.ok 10, fun _ => Except.ok 7,
   fun _ => Except.ok (), fun _ _ => Except.ok ()⟩

/-- Like `svcA` but with execution fees 1000, making the computed profit
negative. -/
def svcN : Service :=
  ⟨LiquidationMode.Partial, 500, fun _ => Except.ok 1000, fun _ => Except.ok 7,
   fun _ => Except.ok (), fun _ _ => Except.ok ()⟩

/-- Like `svcA` but with minimum profit 900 (spec §8 scenario B): the profit
845 is below the threshold, so no transaction is submitted. -/
def svcB : Service :=
  ⟨LiquidationMode.Partial, 900, fun _ => Except.ok 10, fun _ => Except.ok 7,
   fun _ => Except.ok (), fun _ _ => Except.ok ()⟩

/-- Like `svcA` but execution returns transaction hash 10, whose decimal
rendering re-read as hexadecimal is 16. -/
def svcT : Service :=
  ⟨LiquidationMode.Partial, 500, fun _ => Except.ok 10, fun _ => Except.ok 10,
   fun _ => Except.ok (), fun _ _ => Except.ok ()⟩

/-- Like `svcA` but execution returns the transaction hash 10^64, whose
decimal rendering has 65 characters — more than the 64-character limit of the
dependency's hex parser. -/
def svcH : Service :=
  ⟨LiquidationMode.Partial, 500, fun _ => Except.ok 10, fun _ => Except.ok (10 ^ 64),
   fun _ => Except.ok (), fun _ _ => Except.ok ()⟩

/-- A position whose liquidable-amount calculation fails. -/
def posE : Position :=
  ⟨2, "USDC", true, fun _ => Except.error "RPC failure", 1 / 10, fun _ _ => Except.ok txsA⟩

/-- First producer-message payload for key 5. -/
def posW1 : Position :=
  ⟨5, "DAI", false, fun _ => Except.ok (0, 0), 0, fun _ _ => Except.ok []⟩

/-- Second producer-message payload for the same key 5; replaces `posW1`. -/
def posW2 : Position :=
  ⟨5, "WBTC", false, fun _ => Except.ok (0, 0), 0, fun _ _ => Except.ok []⟩

/-- C1: for every position whose collaborators yield liquidable debt amount
`D` (and collateral amount `C`), liquidation factor `f`, transactions `txs`
and execution fees `F`, `compute_profitability` returns exactly the rational
`(D * (1 - f)) * (1 - 5/100) - F`: the simulated profit `D * (1 - f)` with a
fixed 5% slippage haircut, minus the fees, in exact decimal arithmetic; the
value may be negative (the witness exhibits a negative instance). -/
theorem compute_profitability_formula (svc : Service) (p : Position)
    (D C f F : ℚ) (txs : List Call)
    (hla : p.liquidable_amount svc.liquidation_mode = Except.ok (D, C))
    (hf : p.fetch_liquidation_factors = f)
    (htx : p.get_liquidation_txs
      (match svc.liquidation_mode with
       | LiquidationMode.Full => 0
       | LiquidationMode.Partial => D * f) (C * f) = Except.ok txs)
    (hfee : svc.estimate_fees_cost txs = Except.ok F) :
    (compute_profitability svc p).2 =
      Except.ok ((D * (1 - f)) * (1 - 5 / 100) - F, txs) := by
  simp only [compute_profitability, hla, hf, htx, hfee]
  norm_num

/-- Witness for C1: with amounts 1000/2000, factor 0.1, fees 10 the formula
instance holds; with fees 1000 it holds as well and the resulting profit is
negative. -/
theorem compute_profitability_formula_witness :
    (compute_profitability svcA posA).2 =
      Except.ok (((1000 : ℚ) * (1 - 1 / 10)) * (1 - 5 / 100) - 10, txsA) ∧
    (compute_profitability svcN posA).2 =
      Except.ok (((1000 : ℚ) * (1 - 1 / 10)) * (1 - 5 / 100) - 1000, txsA) ∧
    ((1000 : ℚ) * (1 - 1 / 10)) * (1 - 5 / 100) - 1000 < 0 :=
  ⟨compute_profitability_formula svcA posA 1000 2000 (1 / 10) 10 txsA rfl rfl rfl rfl,
   compute_profitability_formula svcN posA 1000 2000 (1 / 10) 1000 txsA rfl rfl rfl rfl,
   by norm_num⟩

/-- C4: `compute_profitability` hands the transaction builder a debt amount
to liquidate equal to 0 in Full mode and `D * f` in Partial mode, and in both
modes a minimum collateral to receive of `C * f`, where `(D, C)` are the
liquidable amounts and `f` the position's liquidation factor. -/
theorem compute_profitability_sizing (svc : Service) (p : Position)
    (D C : ℚ)
    (hla : p.liquidable_amount svc.liquidation_mode = Except.ok (D, C)) :
    ExtCall.getTxsCall p.key
      (match svc.liquidation_mode with
       | LiquidationMode.Full => 0
       | LiquidationMode.Partial => D * p.fetch_liquidation_factors)
      (C * p.fetch_liquidation_factors) ∈ (compute_profitability svc p).1 := by
  simp only [compute_profitability, hla]
  split
  · simp
  · split <;> simp

/-- Witness for C4: in Partial mode with amounts 1000/2000 and factor 0.1 the
builder receives debt 1000 × 0.1 and minimum collateral 2000 × 0.1. -/
theorem compute_profitability_sizing_witness :
    ExtCall.getTxsCall 1 ((1000 : ℚ) * (1 / 10)) ((2000 : ℚ) * (1 / 10))
      ∈ (compute_profitability svcA posA).1 :=
  compute_profitability_sizing svcA posA 1000 2000 rfl

/-- The profitability simulation never submits a transaction: its trace
contains no `executeTxsCall`. -/
theorem countP_isExecute_compute (svc : Service) (p : Position) :
    List.countP ExtCall.isExecute (compute_profitability svc p).1 = 0 := by
  simp only [compute_profitability]
  split
  · rfl
  · split
    · rfl
    · split <;> rfl

/-- The confirmation wait never submits a transaction: its trace contains no
`executeTxsCall`. -/
theorem countP_isExecute_wait (svc : Service) (s : String) :
    List.countP ExtCall.isExecute (wait_for_tx_to_be_accepted svc s).1 = 0 := by
  simp only [wait_for_tx_to_be_accepted]
  split <;> rfl

/-- C2: scenario A (Partial mode, liquidable amounts 1000/2000, factor 0.1,
fees 10, minimum profit 500): the builder is asked for debt 100 and minimum
collateral 200, the attempt returns profit 845 = (1000 × 0.9) × 0.95 − 10,
845 ≥ 500, and the execution (transaction submission) is invoked exactly
once. -/
theorem scenario_a_partial :
    (try_to_liquidate_position svcA posA).2 = Except.ok 845 ∧
    ExtCall.getTxsCall 1 100 200 ∈ (try_to_liquidate_position svcA posA).1 ∧
    List.countP ExtCall.isExecute (try_to_liquidate_position svcA posA).1 = 1 ∧
    (845 : ℚ) ≥ 500 := by
  have hc : compute_profitability svcA posA =
      ([ExtCall.liquidableAmountCall 1, ExtCall.fetchFactorsCall 1,
        ExtCall.getTxsCall 1 100 200, ExtCall.estimateFeesCall 1],
       Except.ok ((845 : ℚ), txsA)) := by
    simp only [compute_profitability, svcA, posA]
    norm_num
  have ht : try_to_liquidate_position svcA posA =
      ([ExtCall.liquidableAmountCall 1, ExtCall.fetchFactorsCall 1,
        ExtCall.getTxsCall 1 100 200, ExtCall.estimateFeesCall 1,
        ExtCall.executeTxsCall txsA, ExtCall.waitForTxCall 7],
       Except.ok (845 : ℚ)) := by
    rw [try_to_liquidate_position, hc]
    rfl
  rw [ht]
  refine ⟨rfl, by simp, rfl, by norm_num⟩

/-- C3: the threshold gate of the liquidation attempt is inclusive: given the
profitability computation succeeds with profit `prof`, the transaction set is
submitted (exactly one `executeTxsCall` occurs) if and only if
`prof ≥ min_profit`, and whenever `prof < min_profit` no transaction is
submitted at all. -/
theorem threshold_gate (svc : Service) (p : Position) (l : List ExtCall)
    (prof : ℚ) (txs : List Call)
    (h : compute_profitability svc p = (l, Except.ok (prof, txs))) :
    (List.countP ExtCall.isExecute (try_to_liquidate_position svc p).1 = 1 ↔
       prof ≥ svc.min_profit) ∧
    (prof < svc.min_profit →
       List.countP ExtCall.isExecute (try_to_liquidate_position svc p).1 = 0) := by
  have hl0 : List.countP ExtCall.isExecute l = 0 := by
    have hc := countP_isExecute_compute svc p
    rw [h] at hc
    exact hc
  simp only [try_to_liquidate_position, h]
  by_cases hge : prof ≥ svc.min_profit
  · rw [if_pos hge]
    rcases he : svc.execute_txs txs with e | fl
    · simp only [he]
      refine ⟨⟨fun _ => hge, fun _ => ?_⟩, fun hlt => absurd hlt (not_lt.mpr hge)⟩
      simp [List.countP_append, List.countP_cons, hl0, ExtCall.isExecute]
    · have hw := countP_isExecute_wait svc (feltToString fl)
      rcases hwl : wait_for_tx_to_be_accepted svc (feltToString fl) with ⟨l2, r2⟩
      rw [hwl] at hw
      simp only [he, hwl]
      rcases r2 with e2 | u
      · refine ⟨⟨fun _ => hge, fun _ => ?_⟩, fun hlt => absurd hlt (not_lt.mpr hge)⟩
        simp only at hw
        simp [List.countP_append, List.countP_cons, hl0, ExtCall.isExecute, hw]
      · refine ⟨⟨fun _ => hge, fun _ => ?_⟩, fun hlt => absurd hlt (not_lt.mpr hge)⟩
        simp only at hw
        simp [List.countP_append, List.countP_cons, hl0, ExtCall.isExecute, hw]
  · rw [if_neg hge]
    exact ⟨⟨fun h1 => absurd (hl0.symm.trans h1) (by norm_num), fun h1 => absurd h1 hge⟩,
           fun _ => hl0⟩

/-- Witness for C3: at scenario A's inputs the computed profit is
(1000 × (1 − 0.1)) × (1 − 0.05) − 10 and the gate equivalence holds for it. -/
theorem threshold_gate_witness :
    (List.countP ExtCall.isExecute (try_to_liquidate_position svcA posA).1 = 1 ↔
       ((1000 : ℚ) * (1 - 1 / 10)) * (1 - 5 / 10 ^ 2) - 10 ≥ svcA.min_profit) ∧
    (((1000 : ℚ) * (1 - 1 / 10)) * (1 - 5 / 10 ^ 2) - 10 < svcA.min_profit →
       List.countP ExtCall.isExecute (try_to_liquidate_position svcA posA).1 = 0) :=
  threshold_gate svcA posA
    [ExtCall.liquidableAmountCall 1, ExtCall.fetchFactorsCall 1,
     ExtCall.getTxsCall 1 (1000 * (1 / 10)) (2000 * (1 / 10)),
     ExtCall.estimateFeesCall 1]
    (((1000 : ℚ) * (1 - 1 / 10)) * (1 - 5 / 10 ^ 2) - 10) txsA rfl

/-- C6: when the producer channel is permanently closed, the scheduler loop
terminates with the fatal "stopped unexpectedly" error, performing no further
external calls regardless of any later events (no further sweeps or
merges). -/
theorem channel_closed_fatal (svc : Service) (book : Book) (rest : List Event) :
    run svc book (Event.closed :: rest) =
      ([], Except.error "⛔ Monitoring stopped unexpectedly.") := rfl

/-- C9: a sweep over an empty position book returns immediately without error
and with an empty external-call trace (no oracle or chain calls); under the
scheduler a tick on an empty book is a no-op. -/
theorem sweep_empty_book (svc : Service) (rest : List Event) :
    monitor_positions_liquidability svc [] = ([], Except.ok ()) ∧
    run svc [] (Event.tick :: rest) = run svc [] rest := by
  refine ⟨rfl, ?_⟩
  rcases hr : run svc [] rest with ⟨l2, r⟩
  simp [run, monitor_positions_liquidability, hr]

/-- Looking up a key after an insertion: the inserted key maps to the new
position, all other keys are untouched. -/
theorem bookLookup_insert (b : Book) (k j : Nat) (p : Position) :
    bookLookup (bookInsert b k p) j = if k = j then some p else bookLookup b j := by
  induction b with
  | nil => simp [bookInsert, bookLookup]
  | cons kp rest ih =>
    obtain ⟨k0, p0⟩ := kp
    simp only [bookInsert]
    by_cases h0 : k0 = k
    · subst h0
      simp only [if_pos rfl, bookLookup]
      by_cases hj : k0 = j <;> simp [hj]
    · rw [if_neg h0]
      simp only [bookLookup, ih]
      by_cases hj : k0 = j
      · subst hj
        have : ¬ k = k0 := fun hkk => h0 hkk.symm
        simp [this]
      · simp [hj]

/-- Processing a pure message sequence: when every storage write succeeds, the
loop is still running, its trace is exactly one save per merged update (with
the post-merge snapshot and the triggering block number), and the book is the
in-order fold of the inserts. -/
theorem run_msgs (svc : Service) (book : Book) (msgs : List (Nat × Position))
    (hsave : ∀ b n, svc.storage_save b n = Except.ok ()) :
    run svc book (List.map (fun m => Event.msg m.1 m.2) msgs) =
      (saveTrace book msgs, Except.ok (applyMsgs book msgs)) := by
  induction msgs generalizing book with
  | nil => rfl
  | cons m rest ih =>
    obtain ⟨bn, p⟩ := m
    simp only [List.map, run, saveTrace, applyMsgs, hsave, ih]

/-- The book after a message sequence maps each key to the most recent
message for it, or to its initial entry if no message mentioned it. -/
theorem applyMsgs_lookup (book : Book) (msgs : List (Nat × Position)) (k : Nat) :
    bookLookup (applyMsgs book msgs) k = lwwExpected book msgs k := by
  induction msgs generalizing book with
  | nil => rfl
  | cons m rest ih =>
    obtain ⟨bn, p⟩ := m
    simp only [applyMsgs]
    rw [ih]
    rcases hlast : lastMsgFor rest k with _ | q
    · simp only [lwwExpected, lastMsgFor, hlast]
      by_cases hk : p.key = k <;> simp [hk, bookLookup_insert]
    · simp only [lwwExpected, lastMsgFor, hlast]

/-- C5: for every initial book and sequence of producer messages (all storage
writes succeeding), the channel branch leaves the book at the in-order fold of
last-write-wins inserts — each key maps to the most recently received message
for it, keys without messages keep their initial entry, nothing is deleted —
and the persistence trace is exactly one save per merged update, carrying the
full current book and the block number of the update that triggered it, never
one per sweep. -/
theorem channel_branch_lww (svc : Service) (book : Book)
    (msgs : List (Nat × Position)) (k : Nat)
    (hsave : ∀ b n, svc.storage_save b n = Except.ok ()) :
    run svc book (List.map (fun m => Event.msg m.1 m.2) msgs) =
      (saveTrace book msgs, Except.ok (applyMsgs book msgs)) ∧
    bookLookup (applyMsgs book msgs) k = lwwExpected book msgs k :=
  ⟨run_msgs svc book msgs hsave, applyMsgs_lookup book msgs k⟩

/-- Witness for C5: two messages for the same key 5; the loop persists after
each merge and the final book holds the second payload at key 5. -/
theorem channel_branch_lww_witness :
    run svcA [] (List.map (fun m => Event.msg m.1 m.2) [(1, posW1), (2, posW2)]) =
      (saveTrace [] [(1, posW1), (2, posW2)],
       Except.ok (applyMsgs [] [(1, posW1), (2, posW2)])) ∧
    bookLookup (applyMsgs [] [(1, posW1), (2, posW2)]) 5 =
      lwwExpected [] [(1, posW1), (2, posW2)] 5 :=
  channel_branch_lww svcA [] [(1, posW1), (2, posW2)] 5 (fun _ _ => rfl)

/-- A decimal digit character parses back as a hexadecimal digit with the
same value. -/
theorem hexDigitVal_decDigitChar (d : Nat) (hd : d < 10) :
    hexDigitVal (decDigitChar d) = some d := by
  interval_cases d <;> rfl

/-- Every character produced by the decimal printer is a decimal digit
character. -/
theorem decDigitsCore_digits (fuel : Nat) :
    ∀ (n : Nat) (acc : List Char),
      (∀ c ∈ acc, ∃ d, d < 10 ∧ c = decDigitChar d) →
      ∀ c ∈ decDigitsCore fuel n acc, ∃ d, d < 10 ∧ c = decDigitChar d := by
  induction fuel with
  | zero => exact fun n acc hacc => hacc
  | succ fuel ih =>
    intro n acc hacc
    simp only [decDigitsCore]
    by_cases hn : n < 10
    · rw [if_pos hn]
      intro c hc
      rcases List.mem_cons.mp hc with rfl | hc2
      · exact ⟨n, hn, rfl⟩
      · exact hacc c hc2
    · rw [if_neg hn]
      refine ih (n / 10) _ ?_
      intro c hc
      rcases List.mem_cons.mp hc with rfl | hc2
      · exact ⟨n % 10, Nat.mod_lt n (by norm_num), rfl⟩
      · exact hacc c hc2

/-- The decimal printer never returns an empty list when the accumulator is
nonempty. -/
theorem decDigitsCore_ne_nil (fuel : Nat) :
    ∀ (n : Nat) (acc : List Char), acc ≠ [] → decDigitsCore fuel n acc ≠ [] := by
  induction fuel with
  | zero => exact fun n acc hacc => hacc
  | succ fuel ih =>
    intro n acc hacc
    simp only [decDigitsCore]
    by_cases hn : n < 10
    · rw [if_pos hn]
      exact List.cons_ne_nil _ _
    · rw [if_neg hn]
      exact ih _ _ (List.cons_ne_nil _ _)

/-- The decimal rendering of a field element is never empty. -/
theorem feltToString_data_ne_nil (x : Felt) : (feltToString x).data ≠ [] := by
  show decDigitsCore (x + 1) x [] ≠ []
  simp only [decDigitsCore]
  by_cases hx : x < 10
  · rw [if_pos hx]
    exact List.cons_ne_nil _ _
  · rw [if_neg hx]
    exact decDigitsCore_ne_nil _ _ _ (List.cons_ne_nil _ _)

/-- Hex parsing succeeds on any list of hex-digit characters. -/
theorem parseHexDigits_isSome (cs : List Char) :
    ∀ acc : Nat, (∀ c ∈ cs, (hexDigitVal c).isSome) →
      ∃ v, parseHexDigits cs acc = some v := by
  induction cs with
  | nil => exact fun acc _ => ⟨acc, rfl⟩
  | cons c cs ih =>
    intro acc h
    have hc := h c (List.mem_cons_self c cs)
    rcases hv : hexDigitVal c with _ | d
    · rw [hv] at hc
      simp at hc
    · simp only [parseHexDigits, hv]
      exact ih _ (fun c2 hc2 => h c2 (List.mem_cons_of_mem c hc2))

/-- A string of decimal digit characters never starts with the `0x` marker,
so stripping is the identity on it. -/
theorem stripHexMark_digits (cs : List Char)
    (h : ∀ c ∈ cs, ∃ d, d < 10 ∧ c = decDigitChar d) :
    stripHexMark cs = cs := by
  unfold stripHexMark
  split
  · exfalso
    rcases h 'x' (by simp) with ⟨d, hd, hx⟩
    interval_cases d <;> exact absurd hx (by decide)
  · rfl

/-- The decimal printer emits at most `k` digits (plus the accumulator) for
numbers below `10 ^ k`. -/
theorem decDigitsCore_length (fuel : Nat) :
    ∀ (n : Nat) (acc : List Char) (k : Nat), n < fuel → n < 10 ^ k → 0 < k →
      (decDigitsCore fuel n acc).length ≤ k + acc.length := by
  induction fuel with
  | zero =>
    intro n acc k hn
    exact absurd hn (Nat.not_lt_zero n)
  | succ fuel ih =>
    intro n acc k hfuel hnk hk
    simp only [decDigitsCore]
    by_cases hn : n < 10
    · rw [if_pos hn]
      simp only [List.length_cons]
      omega
    · rw [if_neg hn]
      rcases k with _ | k'
      · exact absurd hk (by omega)
      · rcases k' with _ | k2
        · exact absurd hnk (by simpa using hn)
        · have hdiv_fuel : n / 10 < fuel := by
            have h1 : n / 10 < n := Nat.div_lt_self (by omega) (by omega)
            omega
          have hdiv_k : n / 10 < 10 ^ (k2 + 1) := by
            rw [Nat.div_lt_iff_lt_mul (by omega : 0 < 10)]
            calc n < 10 ^ (k2 + 2) := hnk
            _ = 10 ^ (k2 + 1) * 10 := by ring
          have hrec := ih (n / 10) (decDigitChar (n % 10) :: acc) (k2 + 1)
            hdiv_fuel hdiv_k (by omega)
          simp only [List.length_cons] at hrec
          omega

/-- A handle below `10 ^ 64` renders as at most 64 decimal characters. -/
theorem feltToString_length_le (x : Felt) (hx : x < 10 ^ 64) :
    (feltToString x).data.length ≤ 64 := by
  have h := decDigitsCore_length (x + 1) x [] 64 (Nat.lt_succ_self x) hx (by omega)
  simpa using h

/-- For handles below `10 ^ 64` (decimal renderings of at most 64
characters), re-parsing the decimal rendering as hexadecimal succeeds
(decimal digits are valid hex digits and the length limit is met) — albeit,
for values of ten or more, with a different numeric value. Larger handles are
rejected by the parser's 64-character limit instead. -/
theorem feltFromHex_feltToString_isOk (x : Felt) (hx : x < 10 ^ 64) :
    ∃ v, feltFromHex (feltToString x) = Except.ok v := by
  have hdig : ∀ c ∈ (feltToString x).data, ∃ d, d < 10 ∧ c = decDigitChar d :=
    decDigitsCore_digits (x + 1) x [] (by simp)
  have hstrip : stripHexMark (feltToString x).data = (feltToString x).data :=
    stripHexMark_digits _ hdig
  have hne : (feltToString x).data ≠ [] := feltToString_data_ne_nil x
  have hie : ((feltToString x).data).isEmpty = false := by
    rcases hl : (feltToString x).data with _ | ⟨c, cs⟩
    · exact absurd hl hne
    · rfl
  have hlen : ¬ ((feltToString x).data.length > 64) :=
    not_lt.mpr (feltToString_length_le x hx)
  have hlen2 : ¬ ((feltToString x).length > 64) := hlen
  have hsome : ∀ c ∈ (feltToString x).data, (hexDigitVal c).isSome := by
    intro c hc
    rcases hdig c hc with ⟨d, hd, rfl⟩
    rw [hexDigitVal_decDigitChar d hd]
    rfl
  rcases parseHexDigits_isSome (feltToString x).data 0 hsome with ⟨v, hv⟩
  exact ⟨v % starkPrime, by simp [feltFromHex, hstrip, hie, hlen, hlen2, hv]⟩

/-- C8 (refuted — code bug): the attempt does not return the computed profit
in every executed branch. With every collaborator succeeding and the gate
passed (profit 845 ≥ 500), a submission handle of 10^64 renders as 65 decimal
characters, which the confirmation wait's internal `Felt::from_hex` re-parse
rejects (64-hex-character limit), so `try_to_liquidate_position` returns that
error instead of the profit — the transaction was submitted, yet no profit is
returned. The skip branch (threshold 900) does return the computed profit
845, as the claim says. This is the same `to_string`/`from_hex` slip as the
round-trip bug: the spec's contract ("returns the computed profit in both
branches") is the clear intent. -/
theorem profit_not_returned_on_large_handle :
    (try_to_liquidate_position svcH posA).2 = Except.error "hex string is too big" ∧
    ExtCall.executeTxsCall txsA ∈ (try_to_liquidate_position svcH posA).1 ∧
    (try_to_liquidate_position svcB posA).2 = Except.ok 845 := by
  have hcH : compute_profitability svcH posA =
      ([ExtCall.liquidableAmountCall 1, ExtCall.fetchFactorsCall 1,
        ExtCall.getTxsCall 1 100 200, ExtCall.estimateFeesCall 1],
       Except.ok ((845 : ℚ), txsA)) := by
    simp only [compute_profitability, svcH, posA]
    norm_num
  have htH : try_to_liquidate_position svcH posA =
      ([ExtCall.liquidableAmountCall 1, ExtCall.fetchFactorsCall 1,
        ExtCall.getTxsCall 1 100 200, ExtCall.estimateFeesCall 1,
        ExtCall.executeTxsCall txsA],
       Except.error "hex string is too big") := by
    rw [try_to_liquidate_position, hcH]
    rfl
  have hcB : compute_profitability svcB posA =
      ([ExtCall.liquidableAmountCall 1, ExtCall.fetchFactorsCall 1,
        ExtCall.getTxsCall 1 100 200, ExtCall.estimateFeesCall 1],
       Except.ok ((845 : ℚ), txsA)) := by
    simp only [compute_profitability, svcB, posA]
    norm_num
  have htB : try_to_liquidate_position svcB posA =
      ([ExtCall.liquidableAmountCall 1, ExtCall.fetchFactorsCall 1,
        ExtCall.getTxsCall 1 100 200, ExtCall.estimateFeesCall 1],
       Except.ok (845 : ℚ)) := by
    rw [try_to_liquidate_position, hcB]
    rfl
  refine ⟨by rw [htH], ?_, by rw [htB]⟩
  rw [htH]
  simp

/-- A failing liquidable-amount calculation propagates out of the
profitability simulation. -/
theorem compute_err_amount (svc : Service) (p : Position) (e : Err)
    (hla : p.liquidable_amount svc.liquidation_mode = Except.error e) :
    (compute_profitability svc p).2 = Except.error e := by
  simp only [compute_profitability, hla]

/-- A failing transaction builder propagates out of the profitability
simulation. -/
theorem compute_err_builder (svc : Service) (p : Position) (e : Err) (D C : ℚ)
    (hla : p.liquidable_amount svc.liquidation_mode = Except.ok (D, C))
    (htx : ∀ d m : ℚ, p.get_liquidation_txs d m = Except.error e) :
    (compute_profitability svc p).2 = Except.error e := by
  simp only [compute_profitability, hla, htx]

/-- A failing fee estimation propagates out of the profitability
simulation. -/
theorem compute_err_fees (svc : Service) (p : Position) (e : Err) (D C : ℚ)
    (txs : List Call)
    (hla : p.liquidable_amount svc.liquidation_mode = Except.ok (D, C))
    (htx : ∀ d m : ℚ, p.get_liquidation_txs d m = Except.ok txs)
    (hfe : svc.estimate_fees_cost txs = Except.error e) :
    (compute_profitability svc p).2 = Except.error e := by
  simp only [compute_profitability, hla, htx, hfe]

/-- A failing profitability simulation propagates out of the liquidation
attempt. -/
theorem try_err_of_compute (svc : Service) (p : Position) (e : Err)
    (hc : (compute_profitability svc p).2 = Except.error e) :
    (try_to_liquidate_position svc p).2 = Except.error e := by
  rcases hcp : compute_profitability svc p with ⟨l, r⟩
  rw [hcp] at hc
  have hr : r = Except.error e := hc
  subst hr
  simp only [try_to_liquidate_position, hcp]

/-- A failing transaction submission propagates out of the liquidation
attempt. -/
theorem try_err_exec (svc : Service) (p : Position) (e : Err)
    (l : List ExtCall) (prof : ℚ) (txs : List Call)
    (h : compute_profitability svc p = (l, Except.ok (prof, txs)))
    (hge : prof ≥ svc.min_profit)
    (hex : svc.execute_txs txs = Except.error e) :
    (try_to_liquidate_position svc p).2 = Except.error e := by
  simp only [try_to_liquidate_position, h]
  rw [if_pos hge]
  simp only [hex]

/-- A failing confirmation wait propagates out of the liquidation attempt. -/
theorem try_err_wait (svc : Service) (p : Position) (e : Err)
    (l l2 : List ExtCall) (prof : ℚ) (txs : List Call) (fl : Felt)
    (h : compute_profitability svc p = (l, Except.ok (prof, txs)))
    (hge : prof ≥ svc.min_profit)
    (hex : svc.execute_txs txs = Except.ok fl)
    (hw : wait_for_tx_to_be_accepted svc (feltToString fl) = (l2, Except.error e)) :
    (try_to_liquidate_position svc p).2 = Except.error e := by
  simp only [try_to_liquidate_position, h]
  rw [if_pos hge]
  simp only [hex, hw]

/-- A failing attempt on a liquidable position reached by the sweep (every
earlier position having been processed without error) fails the whole
sweep. -/
theorem sweep_append_error (svc : Service) (p : Position) (k : Nat) (e : Err) :
    ∀ pre : Book, ∀ post : Book,
      (sweep svc pre).2 = Except.ok () → p.is_liquidable = true →
      (try_to_liquidate_position svc p).2 = Except.error e →
      (sweep svc (pre ++ (k, p) :: post)).2 = Except.error e := by
  intro pre
  induction pre with
  | nil =>
    intro post hpre hliq htry
    simp only [List.nil_append, sweep, hliq, if_true]
    rcases ht : try_to_liquidate_position svc p with ⟨l, r⟩
    rw [ht] at htry
    have hr : r = Except.error e := htry
    subst hr
    rfl
  | cons kq pre ih =>
    intro post hpre hliq htry
    obtain ⟨k0, q⟩ := kq
    cases hq : q.is_liquidable with
    | false =>
      simp only [sweep, hq, if_false, List.cons_append] at hpre ⊢
      rcases hs : sweep svc pre with ⟨lp, rp⟩
      rw [hs] at hpre
      have hrp : rp = Except.ok () := hpre
      subst hrp
      rcases hs2 : sweep svc (pre ++ (k, p) :: post) with ⟨l3, r3⟩
      have hr3 : r3 = Except.error e := by
        have := ih post (by rw [hs]) hliq htry
        rw [hs2] at this
        exact this
      subst hr3
      simp
    | true =>
      simp only [sweep, hq, if_true, List.cons_append] at hpre ⊢
      rcases htq : try_to_liquidate_position svc q with ⟨lq, rq⟩
      rw [htq] at hpre
      rcases rq with e2 | u
      · exact absurd hpre (by simp)
      · rcases hs : sweep svc pre with ⟨lp, rp⟩
        rw [hs] at hpre
        have hrp : rp = Except.ok () := hpre
        subst hrp
        rcases hs2 : sweep svc (pre ++ (k, p) :: post) with ⟨l3, r3⟩
        have hr3 : r3 = Except.error e := by
          have := ih post (by rw [hs]) hliq htry
          rw [hs2] at this
          exact this
        subst hr3
        simp

/-- A failing sweep fails the whole liquidability check. -/
theorem monitor_err_of_sweep (svc : Service) (book : Book) (e : Err)
    (hsw : (sweep svc book).2 = Except.error e) :
    (monitor_positions_liquidability svc book).2 = Except.error e := by
  rcases book with _ | ⟨kp, rest⟩
  · exact absurd hsw (by simp [sweep])
  · simpa [monitor_positions_liquidability] using hsw

/-- A failing liquidability check on a tick terminates the scheduler loop
with that error. -/
theorem run_tick_err (svc : Service) (book : Book) (e : Err) (rest : List Event)
    (hm : (monitor_positions_liquidability svc book).2 = Except.error e) :
    (run svc book (Event.tick :: rest)).2 = Except.error e := by
  rcases hmm : monitor_positions_liquidability svc book with ⟨l, r⟩
  rw [hmm] at hm
  have hr : r = Except.error e := hm
  subst hr
  simp only [run, hmm]

/-- A failing storage write on a merged update terminates the scheduler loop
with that error. -/
theorem run_msg_err (svc : Service) (book : Book) (e : Err) (bn : Nat)
    (p : Position) (rest : List Event)
    (hs : svc.storage_save (bookInsert book p.key p) bn = Except.error e) :
    (run svc book (Event.msg bn p :: rest)).2 = Except.error e := by
  simp only [run, hs]

/-- Once the loop has terminated with an error, later events change
nothing. -/
theorem run_extend_of_error (svc : Service) (e : Err) :
    ∀ (evts : List Event) (book : Book) (more : List Event),
      (run svc book evts).2 = Except.error e →
      run svc book (evts ++ more) = run svc book evts := by
  intro evts
  induction evts with
  | nil =>
    intro book more h
    simp [run] at h
  | cons ev rest ih =>
    intro book more h
    cases ev with
    | tick =>
      rcases hm : monitor_positions_liquidability svc book with ⟨l, r⟩
      rcases r with e2 | u
      · simp only [List.cons_append, run, hm]
      · simp only [run, hm] at h
        rcases hr : run svc book rest with ⟨l2, r2⟩
        rw [hr] at h
        have hr2 : r2 = Except.error e := h
        subst hr2
        have hext2 : run svc book (rest.append more) = run svc book rest :=
          ih book more (by rw [hr])
        simp only [List.cons_append, run, hm, hext2, hr]
    | msg bn p =>
      rcases hs : svc.storage_save (bookInsert book p.key p) bn with e2 | u
      · simp only [List.cons_append, run, hs]
      · simp only [run, hs] at h
        rcases hr : run svc (bookInsert book p.key p) rest with ⟨l2, r2⟩
        rw [hr] at h
        have hr2 : r2 = Except.error e := h
        subst hr2
        have hext2 : run svc (bookInsert book p.key p) (rest.append more) =
            run svc (bookInsert book p.key p) rest :=
          ih (bookInsert book p.key p) more (by rw [hr])
        simp only [List.cons_append, run, hs, hext2, hr]
    | closed => simp only [List.cons_append, run]

/-- C7: no error is caught and absorbed anywhere in the core. Each conjunct
follows one failure source: the liquidable-amount calculation, the
transaction builder, the fee estimation, the submission and the confirmation
wait all propagate through the attempt; a failing attempt on a reached
liquidable position fails the sweep; a failing sweep fails the check; a
failing check on a tick, like a failing storage write on a merge, terminates
the scheduler loop with that very error, and after an error the loop
processes nothing further — a single failed attempt is fatal to the whole
service. -/
theorem no_error_absorbed (svc : Service) (p : Position)
    (book pre post : Book) (k bn : Nat) (rest more : List Event)
    (evts : List Event) (e : Err) (l l2 : List ExtCall)
    (D C prof : ℚ) (txs : List Call) (fl : Felt) :
    (p.liquidable_amount svc.liquidation_mode = Except.error e →
       (compute_profitability svc p).2 = Except.error e) ∧
    (p.liquidable_amount svc.liquidation_mode = Except.ok (D, C) →
       (∀ d m : ℚ, p.get_liquidation_txs d m = Except.error e) →
       (compute_profitability svc p).2 = Except.error e) ∧
    (p.liquidable_amount svc.liquidation_mode = Except.ok (D, C) →
       (∀ d m : ℚ, p.get_liquidation_txs d m = Except.ok txs) →
       svc.estimate_fees_cost txs = Except.error e →
       (compute_profitability svc p).2 = Except.error e) ∧
    ((compute_profitability svc p).2 = Except.error e →
       (try_to_liquidate_position svc p).2 = Except.error e) ∧
    (compute_profitability svc p = (l, Except.ok (prof, txs)) →
       prof ≥ svc.min_profit → svc.execute_txs txs = Except.error e →
       (try_to_liquidate_position svc p).2 = Except.error e) ∧
    (compute_profitability svc p = (l, Except.ok (prof, txs)) →
       prof ≥ svc.min_profit → svc.execute_txs txs = Except.ok fl →
       wait_for_tx_to_be_accepted svc (feltToString fl) = (l2, Except.error e) →
       (try_to_liquidate_position svc p).2 = Except.error e) ∧
    ((sweep svc pre).2 = Except.ok () → p.is_liquidable = true →
       (try_to_liquidate_position svc p).2 = Except.error e →
       (sweep svc (pre ++ (k, p) :: post)).2 = Except.error e) ∧
    ((sweep svc book).2 = Except.error e →
       (monitor_positions_liquidability svc book).2 = Except.error e) ∧
    ((monitor_positions_liquidability svc book).2 = Except.error e →
       (run svc book (Event.tick :: rest)).2 = Except.error e) ∧
    (svc.storage_save (bookInsert book p.key p) bn = Except.error e →
       (run svc book (Event.msg bn p :: rest)).2 = Except.error e) ∧
    ((run svc book evts).2 = Except.error e →
       run svc book (evts ++ more) = run svc book evts) :=
  ⟨compute_err_amount svc p e,
   fun hla htx => compute_err_builder svc p e D C hla htx,
   fun hla htx hfe => compute_err_fees svc p e D C txs hla htx hfe,
   try_err_of_compute svc p e,
   fun h hge hex => try_err_exec svc p e l prof txs h hge hex,
   fun h hge hex hw => try_err_wait svc p e l l2 prof txs fl h hge hex hw,
   sweep_append_error svc p k e pre post,
   monitor_err_of_sweep svc book e,
   run_tick_err svc book e rest,
   run_msg_err svc book e bn p rest,
   run_extend_of_error svc e evts book more⟩

/-- Witness for C7: a position whose liquidable-amount calculation fails with
"RPC failure" makes the attempt, the sweep, the check and the scheduler loop
all return that error, and a later tick is never processed. -/
theorem no_error_absorbed_witness :
    (try_to_liquidate_position svcA posE).2 = Except.error "RPC failure" ∧
    (run svcA [(2, posE)] [Event.tick]).2 = Except.error "RPC failure" ∧
    run svcA [(2, posE)] ([Event.tick] ++ [Event.tick]) =
      run svcA [(2, posE)] [Event.tick] := by
  have c := no_error_absorbed svcA posE [(2, posE)] [] [] 2 0 [] [Event.tick]
    [Event.tick] "RPC failure" [] [] 0 0 0 txsA 0
  have h1 : (compute_profitability svcA posE).2 = Except.error "RPC failure" :=
    c.1 rfl
  have h2 : (try_to_liquidate_position svcA posE).2 = Except.error "RPC failure" :=
    c.2.2.2.1 h1
  have h3 : (sweep svcA ([] ++ (2, posE) :: [])).2 = Except.error "RPC failure" :=
    c.2.2.2.2.2.2.1 rfl rfl h2
  have h4 : (monitor_positions_liquidability svcA [(2, posE)]).2 =
      Except.error "RPC failure" :=
    c.2.2.2.2.2.2.2.1 h3
  have h5 : (run svcA [(2, posE)] [Event.tick]).2 = Except.error "RPC failure" :=
    c.2.2.2.2.2.2.2.2.1 h4
  exact ⟨h2, h5, c.2.2.2.2.2.2.2.2.2.2 h5⟩

/-- C10 (refuted — code bug): the transaction handle returned by submission
is converted with `to_string` (the dependency's `Display`, which renders
decimal) and re-parsed inside the confirmation wait with `Felt::from_hex`
(which reads hexadecimal). The round trip is not the identity: handle 10
renders as "10", which re-parses as 16, so the attempt waits on transaction
16 although it submitted the transaction whose handle is 10 (the two agree
only when every digit situation coincides, e.g. for handles below 10). -/
theorem felt_roundtrip_breaks :
    feltToString 10 = "10" ∧
    feltFromHex (feltToString 10) = Except.ok 16 ∧
    (16 : Felt) ≠ 10 ∧
    ExtCall.executeTxsCall txsA ∈ (try_to_liquidate_position svcT posA).1 ∧
    ExtCall.waitForTxCall 16 ∈ (try_to_liquidate_position svcT posA).1 ∧
    ExtCall.waitForTxCall 10 ∉ (try_to_liquidate_position svcT posA).1 := by
  have hc : compute_profitability svcT posA =
      ([ExtCall.liquidableAmountCall 1, ExtCall.fetchFactorsCall 1,
        ExtCall.getTxsCall 1 100 200, ExtCall.estimateFeesCall 1],
       Except.ok ((845 : ℚ), txsA)) := by
    simp only [compute_profitability, svcT, posA]
    norm_num
  have ht : try_to_liquidate_position svcT posA =
      ([ExtCall.liquidableAmountCall 1, ExtCall.fetchFactorsCall 1,
        ExtCall.getTxsCall 1 100 200, ExtCall.estimateFeesCall 1,
        ExtCall.executeTxsCall txsA, ExtCall.waitForTxCall 16],
       Except.ok (845 : ℚ)) := by
    rw [try_to_liquidate_position, hc]
    rfl
  refine ⟨by decide, rfl, by decide, ?_, ?_, ?_⟩
  · rw [ht]
    simp
  · rw [ht]
    simp
  · rw [ht]
    simp
